import Mathlib

/-!
# Verification of the sovereign-keychain wallet core

A shallow embedding of the wallet's core services, translated from the
TypeScript source:

* `CryptoService` (`src/lib/crypto.ts`): symmetric encryption of serialized
  entities and ECDSA-style sign/recover over a JSON serialization.
* `DIDResolver` (`src/lib/did-resolver.ts`): `did:ethr:<address>` parsing.
* `StorageService` (`src/lib/storage.ts`): the encrypted record store
  (DIDs, credentials, activity log), export/import of decrypted snapshots.
* `CredentialService` (`src/lib/credential-service.ts`): building, signing
  and verifying verifiable credentials and presentations.
* `OpenIDService` (`src/lib/openid-service.ts`): offer/request parsing,
  issuance simulation and credential filtering.

Modelling conventions:

* JavaScript runtime values are modelled by the inductive type `JVal`.
  JS objects are ordered association lists (insertion order), which is
  exactly what `JSON.stringify` serializes, so `JVal` equality models
  equality of canonical serializations.  Spread `{...a, k: v}` is
  `setField` (replace in place if the key exists, append otherwise).
* The external cryptographic primitives are idealized symbolically:
  - `jsig msg signer` models the signature string produced by
    `wallet.signMessage` over `msg`; address recovery returns `signer`
    exactly when the presented message equals the signed one (ideal
    ECDSA recovery: on any other message recovery yields an unrelated
    address, so the source's lowercase address comparison fails).
  - `jenc payload pass` models the CryptoJS AES ciphertext of the
    serialized `payload` under `pass`; decryption is modelled as an
    ideal authenticated cipher (wrong passphrase is detected, matching
    the source's catch-and-rethrow of `Failed to decrypt data`).
  - `addrOfKey` models the one-way derivation of an Ethereum address
    from a private key (`new ethers.Wallet(pk).address`); only its
    injectivity and determinism are used.
* JS nondeterminism (`crypto.randomUUID()`, `new Date()`, `Math.random()`)
  is passed in as explicit parameters.
* `JSON.stringify`/`JSON.parse` round-tripping is modelled as the
  identity on `JVal` (ciphertexts carry the parsed payload directly).
-/

/-- A JavaScript runtime value as manipulated by the wallet core: JSON
values plus the two opaque string forms produced by the crypto layer
(signatures and ciphertexts). Objects are ordered association lists,
reflecting JS insertion order and hence `JSON.stringify` output. -/
inductive JVal where
  | jnull : JVal
  | jbool (b : Bool) : JVal
  | jnum (n : Int) : JVal
  | jstr (s : String) : JVal
  | jarr (xs : List JVal) : JVal
  | jobj (fs : List (String × JVal)) : JVal
  | jsig (msg : JVal) (signer : String) : JVal
  | jenc (payload : JVal) (pass : String) : JVal
deriving Repr

mutual

/-- Structural equality of `JVal`s (equality of canonical serializations). -/
def JVal.beq : JVal → JVal → Bool
  | .jnull, .jnull => true
  | .jbool a, .jbool b => a == b
  | .jnum a, .jnum b => a == b
  | .jstr a, .jstr b => a == b
  | .jarr xs, .jarr ys => JVal.beqList xs ys
  | .jobj fs, .jobj gs => JVal.beqFields fs gs
  | .jsig m a, .jsig n b => JVal.beq m n && a == b
  | .jenc p a, .jenc q b => JVal.beq p q && a == b
  | _, _ => false

/-- Elementwise equality of `JVal` lists. -/
def JVal.beqList : List JVal → List JVal → Bool
  | [], [] => true
  | x :: xs, y :: ys => JVal.beq x y && JVal.beqList xs ys
  | _, _ => false

/-- Elementwise equality of object field lists. -/
def JVal.beqFields : List (String × JVal) → List (String × JVal) → Bool
  | [], [] => true
  | (k, v) :: xs, (l, w) :: ys => k == l && JVal.beq v w && JVal.beqFields xs ys
  | _, _ => false

end

mutual

theorem JVal.beq_iff : ∀ a b : JVal, JVal.beq a b = true ↔ a = b
  | .jnull, .jnull => by simp [JVal.beq]
  | .jbool a, .jbool b => by simp [JVal.beq]
  | .jnum a, .jnum b => by simp [JVal.beq]
  | .jstr a, .jstr b => by simp [JVal.beq]
  | .jarr xs, .jarr ys => by
      simp [JVal.beq, JVal.beqList_iff xs ys]
  | .jobj fs, .jobj gs => by
      simp [JVal.beq, JVal.beqFields_iff fs gs]
  | .jsig m a, .jsig n b => by
      simp [JVal.beq, JVal.beq_iff m n]
  | .jenc p a, .jenc q b => by
      simp [JVal.beq, JVal.beq_iff p q]
  | .jnull, .jbool _ => by simp [JVal.beq]
  | .jnull, .jnum _ => by simp [JVal.beq]
  | .jnull, .jstr _ => by simp [JVal.beq]
  | .jnull, .jarr _ => by simp [JVal.beq]
  | .jnull, .jobj _ => by simp [JVal.beq]
  | .jnull, .jsig _ _ => by simp [JVal.beq]
  | .jnull, .jenc _ _ => by simp [JVal.beq]
  | .jbool _, .jnull => by simp [JVal.beq]
  | .jbool _, .jnum _ => by simp [JVal.beq]
  | .jbool _, .jstr _ => by simp [JVal.beq]
  | .jbool _, .jarr _ => by simp [JVal.beq]
  | .jbool _, .jobj _ => by simp [JVal.beq]
  | .jbool _, .jsig _ _ => by simp [JVal.beq]
  | .jbool _, .jenc _ _ => by simp [JVal.beq]
  | .jnum _, .jnull => by simp [JVal.beq]
  | .jnum _, .jbool _ => by simp [JVal.beq]
  | .jnum _, .jstr _ => by simp [JVal.beq]
  | .jnum _, .jarr _ => by simp [JVal.beq]
  | .jnum _, .jobj _ => by simp [JVal.beq]
  | .jnum _, .jsig _ _ => by simp [JVal.beq]
  | .jnum _, .jenc _ _ => by simp [JVal.beq]
  | .jstr _, .jnull => by simp [JVal.beq]
  | .jstr _, .jbool _ => by simp [JVal.beq]
  | .jstr _, .jnum _ => by simp [JVal.beq]
  | .jstr _, .jarr _ => by simp [JVal.beq]
  | .jstr _, .jobj _ => by simp [JVal.beq]
  | .jstr _, .jsig _ _ => by simp [JVal.beq]
  | .jstr _, .jenc _ _ => by simp [JVal.beq]
  | .jarr _, .jnull => by simp [JVal.beq]
  | .jarr _, .jbool _ => by simp [JVal.beq]
  | .jarr _, .jnum _ => by simp [JVal.beq]
  | .jarr _, .jstr _ => by simp [JVal.beq]
  | .jarr _, .jobj _ => by simp [JVal.beq]
  | .jarr _, .jsig _ _ => by simp [JVal.beq]
  | .jarr _, .jenc _ _ => by simp [JVal.beq]
  | .jobj _, .jnull => by simp [JVal.beq]
  | .jobj _, .jbool _ => by simp [JVal.beq]
  | .jobj _, .jnum _ => by simp [JVal.beq]
  | .jobj _, .jstr _ => by simp [JVal.beq]
  | .jobj _, .jarr _ => by simp [JVal.beq]
  | .jobj _, .jsig _ _ => by simp [JVal.beq]
  | .jobj _, .jenc _ _ => by simp [JVal.beq]
  | .jsig _ _, .jnull => by simp [JVal.beq]
  | .jsig _ _, .jbool _ => by simp [JVal.beq]
  | .jsig _ _, .jnum _ => by simp [JVal.beq]
  | .jsig _ _, .jstr _ => by simp [JVal.beq]
  | .jsig _ _, .jarr _ => by simp [JVal.beq]
  | .jsig _ _, .jobj _ => by simp [JVal.beq]
  | .jsig _ _, .jenc _ _ => by simp [JVal.beq]
  | .jenc _ _, .jnull => by simp [JVal.beq]
  | .jenc _ _, .jbool _ => by simp [JVal.beq]
  | .jenc _ _, .jnum _ => by simp [JVal.beq]
  | .jenc _ _, .jstr _ => by simp [JVal.beq]
  | .jenc _ _, .jarr _ => by simp [JVal.beq]
  | .jenc _ _, .jobj _ => by simp [JVal.beq]
  | .jenc _ _, .jsig _ _ => by simp [JVal.beq]

theorem JVal.beqList_iff : ∀ xs ys : List JVal, JVal.beqList xs ys = true ↔ xs = ys
  | [], [] => by simp [JVal.beqList]
  | x :: xs, y :: ys => by
      simp [JVal.beqList, JVal.beq_iff x y, JVal.beqList_iff xs ys]
  | [], _ :: _ => by simp [JVal.beqList]
  | _ :: _, [] => by simp [JVal.beqList]

theorem JVal.beqFields_iff : ∀ xs ys : List (String × JVal),
    JVal.beqFields xs ys = true ↔ xs = ys
  | [], [] => by simp [JVal.beqFields]
  | (k, v) :: xs, (l, w) :: ys => by
      simp [JVal.beqFields, JVal.beq_iff v w, JVal.beqFields_iff xs ys]
  | [], _ :: _ => by simp [JVal.beqFields]
  | _ :: _, [] => by simp [JVal.beqFields]

end

instance : DecidableEq JVal := fun a b =>
  decidable_of_iff (JVal.beq a b = true) (JVal.beq_iff a b)

instance {ε α : Type} [DecidableEq ε] [DecidableEq α] : DecidableEq (Except ε α) := fun a b =>
  match a, b with
  | Except.ok x, Except.ok y =>
    if h : x = y then isTrue (by rw [h]) else isFalse (by simp [h])
  | Except.error x, Except.error y =>
    if h : x = y then isTrue (by rw [h]) else isFalse (by simp [h])
  | Except.ok _, Except.error _ => isFalse (by simp)
  | Except.error _, Except.ok _ => isFalse (by simp)

/-! ## JavaScript object and string primitives -/

/-- Property lookup on a JS object field list (first occurrence wins, as in
JS objects where keys are unique by construction). -/
def lookupField : List (String × JVal) → String → Option JVal
  | [], _ => none
  | (k, v) :: rest, key => if k == key then some v else lookupField rest key

/-- `obj[key]` on a `JVal`: `none` models `undefined` (also for property
access on a non-object). -/
def getField (v : JVal) (key : String) : Option JVal :=
  match v with
  | JVal.jobj fs => lookupField fs key
  | _ => none

/-- `{...obj, key: value}` at the field-list level: replace in place when
`key` already exists (JS keeps the original key position), append
otherwise. -/
def setFieldList : List (String × JVal) → String → JVal → List (String × JVal)
  | [], key, value => [(key, value)]
  | (k, v) :: rest, key, value =>
    if k == key then (key, value) :: rest else (k, v) :: setFieldList rest key value

/-- `{...obj, key: value}` on a `JVal`; on a non-object this is the identity
(such a spread never occurs in the embedded code paths). -/
def setField (v : JVal) (key : String) (value : JVal) : JVal :=
  match v with
  | JVal.jobj fs => JVal.jobj (setFieldList fs key value)
  | other => other

/-- `{...base, ...extra}`: fold the extra fields over the base object. -/
def spreadFields (base extra : List (String × JVal)) : List (String × JVal) :=
  extra.foldl (fun acc kv => setFieldList acc kv.1 kv.2) base

/-- JS `String.prototype.toLowerCase` (character-wise lowering). -/
def lowerStr (s : String) : String := ⟨s.data.map Char.toLower⟩

/-- Whether `pre` is a leading segment of `l`. -/
def leadsWith : List Char → List Char → Bool
  | [], _ => true
  | _ :: _, [] => false
  | a :: as, b :: bs => a == b && leadsWith as bs

/-- JS `hay.includes(needle)`: `needle` occurs contiguously in `hay`. -/
def strIncludes (hay needle : String) : Bool :=
  (List.range (hay.data.length + 1)).any fun i => leadsWith needle.data (hay.data.drop i)

/-- JS `value || default` on an optional string parameter: `null` and `""`
(the two falsy cases that occur) both select the default. -/
def jsOrDefault (v : Option String) (d : String) : String :=
  match v with
  | some s => if s == "" then d else s
  | none => d

/-- JS `value || undefined` on an optional string parameter. -/
def jsOrUndefined (v : Option String) : Option String :=
  match v with
  | some s => if s == "" then none else some s
  | none => none

/-! ## CryptoService (`src/lib/crypto.ts`) -/

/-- Typed errors thrown by the embedded services (the source throws
`Error` objects with distinguishing messages). -/
inductive WalletError where
  | decryptionFailed
  | issuerDIDNotFound
  | holderDIDNotFound
  | signFailed
deriving DecidableEq, Repr

namespace CryptoService

/-- Models `new ethers.Wallet(privateKey).address`: the deterministic
one-way derivation of an address from a private key. Only injectivity
and determinism of this map are used by any proof. -/
def addrOfKey (privateKey : String) : String := "0x" ++ privateKey

/-- `CryptoService.encrypt`: `CryptoJS.AES.encrypt(JSON.stringify(data),
passphrase).toString()`. Idealized: the ciphertext carries the serialized
payload and the passphrase it was produced under. -/
def encrypt (data : JVal) (passphrase : String) : JVal :=
  JVal.jenc data passphrase

/-- `CryptoService.decrypt`: decrypt then `JSON.parse`; any failure is
caught and rethrown as `Failed to decrypt data. Invalid passphrase.`
Idealized as an authenticated cipher: a wrong passphrase (or a
non-ciphertext input) is detected and reported, never returned as
garbage. -/
def decrypt (encryptedData : JVal) (passphrase : String) : Except WalletError JVal :=
  match encryptedData with
  | JVal.jenc payload pass =>
    if pass == passphrase then Except.ok payload
    else Except.error WalletError.decryptionFailed
  | _ => Except.error WalletError.decryptionFailed

/-- `CryptoService.signData`: sign the keccak digest of
`JSON.stringify(data)` with the wallet of `privateKey`. The signature
determines the signed serialization and the signer's address. -/
def signData (data : JVal) (privateKey : String) : JVal :=
  JVal.jsig data (addrOfKey privateKey)

/-- `CryptoService.verifySignature`: recover the signer address from the
signature over `JSON.stringify(data)` and compare it (lowercased) with
`address`. Recovery on a message other than the signed one yields an
unrelated address (ideal ECDSA recovery), so the comparison fails; a
malformed signature makes `ethers.verifyMessage` throw, which the
source catches, returning `false`. -/
def verifySignature (data : JVal) (signature : JVal) (address : String) : Bool :=
  match signature with
  | JVal.jsig msg signer =>
    msg == data && lowerStr signer == lowerStr address
  | _ => false

end CryptoService

/-! ## DIDResolver (`src/lib/did-resolver.ts`) -/

namespace DIDResolver

/-- `DIDResolver.extractAddressFromDID`: match `^did:ethr:(.+)$` and return
the captured address, `null` when the prefix is absent or the rest is
empty. -/
def extractAddressFromDID (did : String) : Option String :=
  if leadsWith "did:ethr:".data did.data && decide (9 < did.data.length)
  then some ⟨did.data.drop 9⟩
  else none

end DIDResolver

/-! ## Credential data model (`src/lib/credential-service.ts`) -/

/-- The `Proof` interface: `jws` is never set by the source, so only the
`signature` branch is modelled. `signature := none` models the field
being absent (before `proof.signature = ...` runs, or `undefined`). -/
structure Proof where
  type : String
  created : String
  proofPurpose : String
  verificationMethod : String
  signature : Option JVal
deriving DecidableEq, Repr

/-- The `VerifiableCredential` interface. `context` stands for the
`@context` member; `credentialSubject` is an open JS value. -/
structure VerifiableCredential where
  context : List String
  id : String
  type : List String
  issuer : String
  issuanceDate : String
  expirationDate : Option String
  credentialSubject : JVal
  proof : Option Proof
deriving DecidableEq, Repr

/-- The presentation object built by `createPresentation` (typed `any` in
the source): fields in construction order, with `challenge`/`domain`
conditionally appended and `proof` appended by `signPresentation`. -/
structure Presentation where
  context : List String
  type : List String
  id : String
  holder : String
  verifiableCredential : List VerifiableCredential
  created : String
  challenge : Option String
  domain : Option String
  proof : Option Proof
deriving DecidableEq, Repr

/-- JSON serialization of a `Proof`, in JS insertion order: the four
fields of the object literal, with `signature` appended when set. -/
def proofToJson (p : Proof) : JVal :=
  JVal.jobj
    ([("type", JVal.jstr p.type),
      ("created", JVal.jstr p.created),
      ("proofPurpose", JVal.jstr p.proofPurpose),
      ("verificationMethod", JVal.jstr p.verificationMethod)]
     ++ (match p.signature with
         | some s => [("signature", s)]
         | none => []))

/-- JSON serialization of a credential, in JS insertion order as built by
`createCredential`: base fields, then `expirationDate` (assigned after
construction, hence appended last), then `proof` (appended by
`signCredential`'s spread). An absent optional field produces no key,
matching `JSON.stringify`. -/
def credToJson (c : VerifiableCredential) : JVal :=
  JVal.jobj
    ([("@context", JVal.jarr (c.context.map JVal.jstr)),
      ("id", JVal.jstr c.id),
      ("type", JVal.jarr (c.type.map JVal.jstr)),
      ("issuer", JVal.jstr c.issuer),
      ("issuanceDate", JVal.jstr c.issuanceDate),
      ("credentialSubject", c.credentialSubject)]
     ++ (match c.expirationDate with
         | some d => [("expirationDate", JVal.jstr d)]
         | none => [])
     ++ (match c.proof with
         | some p => [("proof", proofToJson p)]
         | none => []))

/-- JSON serialization of a presentation, in JS insertion order as built
by `createPresentation`/`signPresentation`. -/
def presToJson (p : Presentation) : JVal :=
  JVal.jobj
    ([("@context", JVal.jarr (p.context.map JVal.jstr)),
      ("type", JVal.jarr (p.type.map JVal.jstr)),
      ("id", JVal.jstr p.id),
      ("holder", JVal.jstr p.holder),
      ("verifiableCredential", JVal.jarr (p.verifiableCredential.map credToJson)),
      ("created", JVal.jstr p.created)]
     ++ (match p.challenge with
         | some c => [("challenge", JVal.jstr c)]
         | none => [])
     ++ (match p.domain with
         | some d => [("domain", JVal.jstr d)]
         | none => [])
     ++ (match p.proof with
         | some pr => [("proof", proofToJson pr)]
         | none => []))

/-! ## StorageService (`src/lib/storage.ts`)

Persisted records are JS objects (`JVal`), because the import path
(`{...did, encryptedPrivateKey}`) spreads snapshot records and can carry
fields beyond the declared `StoredDID`/`StoredCredential` interfaces into
the database; association lists model that faithfully. The master
password (module state in the source) is passed explicitly, and `new
Date()` timestamps are parameters. -/

/-- The three Dexie tables of `SSIWalletDB`. -/
structure WalletDB where
  dids : List JVal
  credentials : List JVal
  activities : List JVal
deriving DecidableEq, Repr

/-- The decrypted snapshot produced by `exportWallet` and consumed by
`importWallet` ({ dids, credentials, activities }). -/
structure WalletSnapshot where
  dids : List JVal
  credentials : List JVal
  activities : List JVal
deriving DecidableEq, Repr

namespace StorageService

/-- The record appended by `logActivity`. -/
def logRecord (type description : String) (metadata : JVal) (now : String) : JVal :=
  JVal.jobj
    [("type", JVal.jstr type),
     ("description", JVal.jstr description),
     ("metadata", metadata),
     ("timestamp", JVal.jstr now)]

/-- `StorageService.storeDID`: encrypt the private key under the master
password and persist a fresh `StoredDID` record, logging `did_created`. -/
def storeDID (db : WalletDB) (masterPassword : String)
    (did privateKey publicKey address : String) (metadata : JVal) (now : String) : WalletDB :=
  let record := JVal.jobj
    [("did", JVal.jstr did),
     ("encryptedPrivateKey", CryptoService.encrypt (JVal.jstr privateKey) masterPassword),
     ("publicKey", JVal.jstr publicKey),
     ("address", JVal.jstr address),
     ("metadata", metadata),
     ("createdAt", JVal.jstr now)]
  { db with
    dids := db.dids ++ [record],
    activities := db.activities ++
      [logRecord "did_created" ("DID created: " ++ did)
        (JVal.jobj [("did", JVal.jstr did), ("address", JVal.jstr address)]) now] }

/-- `StorageService.getDID`: find the record for `did`, decrypt its
private key with the master password (a wrong password surfaces as
`decryptionFailed`), and return the assembled plaintext object, or
`none` when the DID is not stored. -/
def getDID (db : WalletDB) (masterPassword did : String) :
    Except WalletError (Option JVal) :=
  match db.dids.find? (fun r => getField r "did" == some (JVal.jstr did)) with
  | none => Except.ok none
  | some stored =>
    match CryptoService.decrypt ((getField stored "encryptedPrivateKey").getD JVal.jnull)
        masterPassword with
    | Except.error e => Except.error e
    | Except.ok privateKey =>
      Except.ok (some (JVal.jobj
        [("did", (getField stored "did").getD JVal.jnull),
         ("privateKey", privateKey),
         ("publicKey", (getField stored "publicKey").getD JVal.jnull),
         ("address", (getField stored "address").getD JVal.jnull),
         ("metadata", (getField stored "metadata").getD JVal.jnull)]))

/-- `StorageService.storeCredential`: encrypt the full credential and
persist a `StoredCredential` index record around the ciphertext, logging
`vc_received`. (`new Date(...)` conversions of the date strings are kept
as the strings themselves.) -/
def storeCredential (db : WalletDB) (masterPassword : String)
    (credential : VerifiableCredential) (now : String) : WalletDB :=
  let encryptedData := CryptoService.encrypt (credToJson credential) masterPassword
  let subjectId :=
    match getField credential.credentialSubject "id" with
    | some (JVal.jstr s) => s
    | _ => ""
  let ctype := jsOrDefault (credential.type.get? 1) "VerifiableCredential"
  let record := JVal.jobj
    ([("vcId", JVal.jstr credential.id),
      ("type", JVal.jstr ctype),
      ("encryptedData", encryptedData),
      ("issuer", JVal.jstr credential.issuer),
      ("subject", JVal.jstr subjectId),
      ("issuanceDate", JVal.jstr credential.issuanceDate)]
     ++ (match credential.expirationDate with
         | some d => [("expirationDate", JVal.jstr d)]
         | none => [])
     ++ [("status", JVal.jstr "active")])
  { db with
    credentials := db.credentials ++ [record],
    activities := db.activities ++
      [logRecord "vc_received" ("Credential received: " ++ ctype)
        (JVal.jobj [("vcId", JVal.jstr credential.id)]) now] }

/-- `StorageService.exportWallet`: decrypt every stored private key and
credential payload and attach the plaintext to a copy of each record
(`{...did, privateKey}` / `{...cred, credential}`); a failed decryption
aborts the export. -/
def exportWallet (db : WalletDB) (masterPassword : String) :
    Except WalletError WalletSnapshot := do
  let dids ← db.dids.mapM fun d => do
    let pk ← CryptoService.decrypt ((getField d "encryptedPrivateKey").getD JVal.jnull)
      masterPassword
    pure (setField d "privateKey" pk)
  let credentials ← db.credentials.mapM fun c => do
    let payload ← CryptoService.decrypt ((getField c "encryptedData").getD JVal.jnull)
      masterPassword
    pure (setField c "credential" payload)
  pure { dids := dids, credentials := credentials, activities := db.activities }

/-- `StorageService.importWallet`: clear all three tables, then re-add
every snapshot record with its sensitive payload re-encrypted under the
(possibly new) password via `{...record, encryptedPrivateKey}` /
`{...record, encryptedData}`, then log `wallet_imported`. No structural
validation of any record is performed, and the previous contents are
destroyed before the first record is examined. -/
def importWallet (db : WalletDB) (password : String) (data : WalletSnapshot)
    (now : String) : WalletDB :=
  let newDids := data.dids.map fun d =>
    setField d "encryptedPrivateKey"
      (CryptoService.encrypt ((getField d "privateKey").getD JVal.jnull) password)
  let newCredentials := data.credentials.map fun c =>
    setField c "encryptedData"
      (CryptoService.encrypt ((getField c "credential").getD JVal.jnull) password)
  { dids := newDids,
    credentials := newCredentials,
    activities := data.activities ++
      [logRecord "wallet_imported" "Wallet data imported successfully"
        (JVal.jobj [("itemCount",
          JVal.jnum (data.dids.length + data.credentials.length))]) now] }

end StorageService

/-! ## CredentialService (`src/lib/credential-service.ts`) -/

/-- The `CredentialRequest` interface (the `issuer` member is never read
by the service, so it is omitted). `subject` is the open claims bag
spread into `credentialSubject`. -/
structure CredentialRequest where
  type : String
  subject : List (String × JVal)
  expirationDate : Option String
deriving DecidableEq, Repr

namespace CredentialService

/-- `CredentialService.createCredential`: build the unsigned credential.
`uuid` stands for `crypto.randomUUID()` and `now` for
`new Date().toISOString()`. `credentialSubject` is
`{id: subjectDID || issuerDID, ...request.subject}` (spread order, with
a falsy `subjectDID` replaced by the issuer). No validation of the
claims bag is performed. -/
def createCredential (request : CredentialRequest) (issuerDID : String)
    (subjectDID : Option String) (uuid now : String) : VerifiableCredential :=
  { context := ["https://www.w3.org/2018/credentials/v1",
                "https://www.w3.org/2018/credentials/examples/v1"],
    id := "urn:uuid:" ++ uuid,
    type := ["VerifiableCredential", request.type],
    issuer := issuerDID,
    issuanceDate := now,
    expirationDate := request.expirationDate,
    credentialSubject :=
      JVal.jobj (spreadFields [("id", JVal.jstr (jsOrDefault subjectDID issuerDID))]
        request.subject),
    proof := none }

/-- `CredentialService.signCredential`: resolve the issuer's private key
through the store, sign `JSON.stringify({...credential})` and attach the
proof. A missing DID, a failed decryption, or a non-string decrypted key
(which would make `new ethers.Wallet` throw) surfaces as the wrapped
`Failed to sign credential` error. -/
def signCredential (db : WalletDB) (masterPassword : String)
    (credential : VerifiableCredential) (issuerDID now : String) :
    Except WalletError VerifiableCredential :=
  match StorageService.getDID db masterPassword issuerDID with
  | Except.error e => Except.error e
  | Except.ok none => Except.error WalletError.issuerDIDNotFound
  | Except.ok (some didData) =>
    match getField didData "privateKey" with
    | some (JVal.jstr privateKey) =>
      let signature := CryptoService.signData (credToJson credential) privateKey
      let proof : Proof :=
        { type := "EcdsaSecp256k1Signature2019",
          created := now,
          proofPurpose := "assertionMethod",
          verificationMethod := issuerDID ++ "#controller",
          signature := some signature }
      Except.ok { credential with proof := some proof }
    | _ => Except.error WalletError.signFailed

/-- `CredentialService.verifyCredential`: `false` for a missing proof or
an unextractable issuer address; otherwise strip `proof` and check the
signature against the issuer address. The whole body is wrapped in
`try/catch → false` in the source, so it never throws; a proof whose
`signature` member is absent reaches `verifySignature` as a
non-signature value and yields `false`. -/
def verifyCredential (credential : VerifiableCredential) : Bool :=
  match credential.proof with
  | none => false
  | some proof =>
    match DIDResolver.extractAddressFromDID credential.issuer with
    | none => false
    | some issuerAddress =>
      CryptoService.verifySignature (credToJson { credential with proof := none })
        (proof.signature.getD JVal.jnull) issuerAddress

/-- `CredentialService.createPresentation`: build the unsigned
presentation, conditionally attaching `challenge` and `domain`. -/
def createPresentation (credentials : List VerifiableCredential) (holderDID : String)
    (challenge domain : Option String) (uuid now : String) : Presentation :=
  { context := ["https://www.w3.org/2018/credentials/v1",
                "https://www.w3.org/2018/credentials/examples/v1"],
    type := ["VerifiablePresentation"],
    id := "urn:uuid:" ++ uuid,
    holder := holderDID,
    verifiableCredential := credentials,
    created := now,
    challenge := challenge,
    domain := domain,
    proof := none }

/-- `CredentialService.signPresentation`: resolve the holder's private
key through the store, sign the serialized presentation and attach an
`authentication` proof. -/
def signPresentation (db : WalletDB) (masterPassword : String)
    (presentation : Presentation) (holderDID now : String) :
    Except WalletError Presentation :=
  match StorageService.getDID db masterPassword holderDID with
  | Except.error e => Except.error e
  | Except.ok none => Except.error WalletError.holderDIDNotFound
  | Except.ok (some didData) =>
    match getField didData "privateKey" with
    | some (JVal.jstr privateKey) =>
      let signature := CryptoService.signData (presToJson presentation) privateKey
      let proof : Proof :=
        { type := "EcdsaSecp256k1Signature2019",
          created := now,
          proofPurpose := "authentication",
          verificationMethod := holderDID ++ "#controller",
          signature := some signature }
      Except.ok { presentation with proof := some proof }
    | _ => Except.error WalletError.signFailed

/-- The presentation-signature prefix of `verifyPresentation`: `false`
for a missing proof or an unextractable holder address, otherwise the
signature check over the presentation with `proof` stripped. -/
def presentationSignatureValid (presentation : Presentation) : Bool :=
  match presentation.proof with
  | none => false
  | some proof =>
    match DIDResolver.extractAddressFromDID presentation.holder with
    | none => false
    | some holderAddress =>
      CryptoService.verifySignature (presToJson { presentation with proof := none })
        (proof.signature.getD JVal.jnull) holderAddress

/-- The `for (const credential of presentation.verifiableCredential)`
loop of `verifyPresentation`: verify each embedded credential in order,
returning `false` at the first failure. -/
def verifyCredentialList : List VerifiableCredential → Bool
  | [] => true
  | c :: rest => if verifyCredential c then verifyCredentialList rest else false

/-- Instrumentation of `verifyCredentialList`: the number of
`verifyCredential` calls the loop performs on the given list (one per
element until and including the first failing credential). -/
def verifyCredentialListChecks : List VerifiableCredential → Nat
  | [] => 0
  | c :: rest => if verifyCredential c then 1 + verifyCredentialListChecks rest else 1

/-- `CredentialService.verifyPresentation`: check the presentation's own
signature, then the embedded credentials. Like `verifyCredential`, the
body is wrapped in `try/catch → false` and never throws. -/
def verifyPresentation (presentation : Presentation) : Bool :=
  if presentationSignatureValid presentation
  then verifyCredentialList presentation.verifiableCredential
  else false

end CredentialService

/-! ## OpenIDService (`src/lib/openid-service.ts`) -/

/-- One entry of an input descriptor's `constraints.fields` (the `filter`
member is never read by the service). -/
structure FieldSpec where
  path : List String
deriving DecidableEq, Repr

/-- The `constraints` member of an input descriptor. -/
structure Constraints where
  fields : List FieldSpec
deriving DecidableEq, Repr

/-- An `input_descriptors` entry (the optional `name`/`purpose` members
are never read by the service). -/
structure InputDescriptor where
  id : String
  constraints : Constraints
deriving DecidableEq, Repr

/-- The `presentation_definition` member of an OpenID4VP request. -/
structure PresentationDefinition where
  id : String
  input_descriptors : List InputDescriptor
deriving DecidableEq, Repr

/-- The `OpenID4VPRequest` interface. -/
structure OpenID4VPRequest where
  response_type : String
  client_id : String
  redirect_uri : String
  scope : String
  state : Option String
  nonce : Option String
  presentation_definition : Option PresentationDefinition
deriving DecidableEq, Repr

/-- A URL that `new URL(url)` accepted, reduced to its query parameters
(`searchParams`). A syntactically invalid URL corresponds to no
`ParsedURL` (the constructor throws and the service returns `null`). -/
structure ParsedURL where
  params : List (String × String)
deriving DecidableEq, Repr

/-- `urlObj.searchParams.get(name)`: the first value bound to `name`, or
`null`. -/
def ParsedURL.getParam (u : ParsedURL) (name : String) : Option String :=
  (u.params.find? (fun kv => kv.1 == name)).map (fun kv => kv.2)

/-- The `OpenID4VCICredentialOffer` interface (the `grants` member is
never read by the processing path modelled here). -/
structure OpenID4VCICredentialOffer where
  credential_issuer : String
  credentials : List String
deriving DecidableEq, Repr

/-- The random values `simulateCredentialFromIssuer` draws for one
credential: the mock issuer's address hex, the mock license suffix, the
fresh UUID and the current timestamp. -/
structure IssuerSimParams where
  randomHex : String
  randomLicense : String
  uuid : String
  now : String
deriving DecidableEq, Repr

namespace OpenIDService

/-- `OpenIDService.simulateCredentialFromIssuer`: build the mock claims
for the offered type (switching on its lowercase form), invent a random
issuer DID, and return the *unsigned* credential from
`createCredential`. The source explicitly does not sign it
("In real implementation, this would be signed by the actual issuer"). -/
def simulateCredentialFromIssuer (p : IssuerSimParams)
    (credentialType issuerEndpoint subjectDID : String) : VerifiableCredential :=
  let issuerDID := "did:ethr:0x" ++ p.randomHex
  let lowered := lowerStr credentialType
  let credentialSubject : List (String × JVal) :=
    if lowered == "universitydegree" || lowered == "universitydegreecredential" then
      [("degree", JVal.jobj [("type", JVal.jstr "Bachelor of Science"),
                            ("name", JVal.jstr "Computer Science")]),
       ("university", JVal.jstr "Example University")]
    else if lowered == "driverlicense" || lowered == "driverlicensecredential" then
      [("licenseNumber", JVal.jstr ("DL" ++ p.randomLicense)),
       ("class", JVal.jstr "Class A"),
       ("restrictions", JVal.jstr "None")]
    else
      [("type", JVal.jstr credentialType),
       ("value", JVal.jstr ("Mock value for " ++ credentialType))]
  CredentialService.createCredential
    { type := credentialType, subject := credentialSubject, expirationDate := none }
    issuerDID (some subjectDID) p.uuid p.now

/-- The `for (const credentialType of offer.credentials)` loop of
`processCredentialOffer`, with `i` counting the iterations so that each
draws its own random values. -/
def processOfferTypes (env : Nat → IssuerSimParams) (issuerEndpoint userDID : String) :
    Nat → List String → List VerifiableCredential
  | _, [] => []
  | i, t :: ts =>
    simulateCredentialFromIssuer (env i) t issuerEndpoint userDID ::
      processOfferTypes env issuerEndpoint userDID (i + 1) ts

/-- `OpenIDService.processCredentialOffer`: simulate one credential per
offered type and return them. Nothing is signed and nothing is
persisted by this function; any mid-loop failure would abort the whole
batch (the single surrounding `try/catch` rethrows). -/
def processCredentialOffer (env : Nat → IssuerSimParams)
    (offer : OpenID4VCICredentialOffer) (userDID : String) : List VerifiableCredential :=
  processOfferTypes env offer.credential_issuer userDID 0 offer.credentials

/-- `OpenIDService.parsePresentationRequest`: decode the query
parameters, defaulting `response_type`/`scope` and replacing missing
`client_id`/`redirect_uri` by `""`. `decodeDefinition` abstracts
`JSON.parse(decodeURIComponent(...))`; when the (truthy)
`presentation_definition` parameter fails to decode, the exception is
caught and the whole request is `null`. A syntactically invalid URL
(`url = none`) also yields `null`. -/
def parsePresentationRequest (decodeDefinition : String → Option PresentationDefinition)
    (url : Option ParsedURL) : Option OpenID4VPRequest :=
  match url with
  | none => none
  | some urlObj =>
    let base : PresentationDefinition → Option PresentationDefinition → OpenID4VPRequest :=
      fun _ pd =>
        { response_type := jsOrDefault (urlObj.getParam "response_type") "vp_token",
          client_id := jsOrDefault (urlObj.getParam "client_id") "",
          redirect_uri := jsOrDefault (urlObj.getParam "redirect_uri") "",
          scope := jsOrDefault (urlObj.getParam "scope") "openid",
          state := jsOrUndefined (urlObj.getParam "state"),
          nonce := jsOrUndefined (urlObj.getParam "nonce"),
          presentation_definition := pd }
    match urlObj.getParam "presentation_definition" with
    | some s =>
      if s == "" then some (base ⟨"", []⟩ none)
      else
        match decodeDefinition s with
        | some pd => some (base pd (some pd))
        | none => none
    | none => some (base ⟨"", []⟩ none)

/-- The type-matching test of `filterCredentialsForRequest`: some
constraint field has a path entry `"$.type"` and some declared type of
the credential contains the descriptor's id as a case-insensitive
substring. -/
def matchesDescriptorType (descriptor : InputDescriptor)
    (credential : VerifiableCredential) : Bool :=
  descriptor.constraints.fields.any fun field =>
    field.path.any fun path =>
      if path == "$.type" then
        credential.type.any fun t => strIncludes (lowerStr t) (lowerStr descriptor.id)
      else false

/-- The inner `for (const credential of credentials)` loop of
`filterCredentialsForRequest`: append each matching credential whose id
is not already in the accumulator. -/
def addMatching (descriptor : InputDescriptor) :
    List VerifiableCredential → List VerifiableCredential → List VerifiableCredential
  | [], matching => matching
  | credential :: rest, matching =>
    if matchesDescriptorType descriptor credential
        && !(matching.any fun c => c.id == credential.id)
    then addMatching descriptor rest (matching ++ [credential])
    else addMatching descriptor rest matching

/-- The outer `for (const descriptor of ...)` loop of
`filterCredentialsForRequest`. -/
def runDescriptors : List InputDescriptor → List VerifiableCredential →
    List VerifiableCredential → List VerifiableCredential
  | [], _, matching => matching
  | d :: ds, credentials, matching =>
    runDescriptors ds credentials (addMatching d credentials matching)

/-- `OpenIDService.filterCredentialsForRequest`: all credentials when no
definition is given; otherwise the nested descriptor/credential loops
with id-deduplication. -/
def filterCredentialsForRequest (credentials : List VerifiableCredential)
    (presentationDefinition : Option PresentationDefinition) : List VerifiableCredential :=
  match presentationDefinition with
  | none => credentials
  | some pd => runDescriptors pd.input_descriptors credentials []

end OpenIDService

/-- Modelled from the spec: structural validation of a snapshot
credential record. `src/lib/storage.ts` contains no validation code for
import; the spec (§6) requires an import to be "rejected wholesale if
any identity or credential record fails structural validation". A
snapshot credential record is structurally valid when it carries the
`StoredCredential` index fields and the decrypted `credential` payload
attached by export. -/
def specValidSnapshotCredential (r : JVal) : Bool :=
  (match getField r "vcId" with
   | some (JVal.jstr _) => true
   | _ => false)
  && (match getField r "issuer" with
      | some (JVal.jstr _) => true
      | _ => false)
  && (getField r "credential").isSome

/-- Modelled from the spec: structural validation of a snapshot identity
record (see `specValidSnapshotCredential`). -/
def specValidSnapshotIdentity (r : JVal) : Bool :=
  (match getField r "did" with
   | some (JVal.jstr _) => true
   | _ => false)
  && (getField r "privateKey").isSome
  && (match getField r "address" with
      | some (JVal.jstr _) => true
      | _ => false)


/-! ## Supporting lemmas -/

/-- Updating an existing key to a different value changes the field list. -/
theorem lookupField_setFieldList_ne : ∀ (fs : List (String × JVal)) (k : String) (v v' : JVal),
    lookupField fs k = some v → v' ≠ v → setFieldList fs k v' ≠ fs
  | [], k, v, v', hget, _ => by simp [lookupField] at hget
  | (k0, w) :: rest, k, v, v', hget, hne => by
    by_cases hk : (k0 == k) = true
    · have hkv : w = v := by simpa [lookupField, hk] using hget
      simp only [setFieldList, hk, if_true]
      intro h
      injection h with h1 h2
      injection h1 with hka hkb
      exact hne (hkb.trans hkv)
    · have hget' : lookupField rest k = some v := by simpa [lookupField, hk] using hget
      simp [setFieldList, hk]
      intro h
      exact lookupField_setFieldList_ne rest k v v' hget' hne h

/-- Updating an existing property of a JS object to a different value
changes the object. -/
theorem setField_ne_of_getField (o : JVal) (k : String) (v v' : JVal)
    (hget : getField o k = some v) (hne : v' ≠ v) : setField o k v' ≠ o := by
  cases o <;> simp [getField] at hget
  case jobj fs =>
    simp only [setField]
    intro h
    injection h with h1
    exact lookupField_setFieldList_ne fs k v v' hget hne h1

/-- Stripping an absent proof is the identity on a credential. -/
theorem cred_strip_none (c : VerifiableCredential) (h : c.proof = none) :
    { c with proof := none } = c := by
  cases c
  simp_all

/-- `credToJson` is injective in the `credentialSubject` component (the
other fields fixed): a changed claims bag changes the serialization. -/
theorem credToJson_subject_inj (c : VerifiableCredential) (s' : JVal)
    (h : credToJson { c with credentialSubject := s' } = credToJson c) :
    s' = c.credentialSubject := by
  simp [credToJson] at h
  exact h

/-! ## Claims -/

/-- C2: decrypting `encrypt(e, s)` with the same secret returns `e`
exactly; decrypting it with any different secret yields the
decryption-failure error, not garbage data (under the ideal-cipher model
of the external AES primitive, see `CryptoService.decrypt`). -/
theorem claim2_encrypt_decrypt_roundtrip (e : JVal) (s sp : String) (hne : sp ≠ s) :
    CryptoService.decrypt (CryptoService.encrypt e s) s = Except.ok e ∧
    CryptoService.decrypt (CryptoService.encrypt e s) sp
      = Except.error WalletError.decryptionFailed := by
  have hb : (s == sp) = false := beq_eq_false_iff_ne.mpr (Ne.symm hne)
  constructor
  · simp [CryptoService.decrypt, CryptoService.encrypt]
  · simp [CryptoService.decrypt, CryptoService.encrypt, hb]

/-- C1: for a credential built by `createCredential` and an identity
held in the unlocked store (its DID resolving to the address of its
stored private key), `signCredential` succeeds and `verifyCredential`
accepts the signed credential; and mutating any existing field of its
claims to a different value after signing makes `verifyCredential`
return `false`. -/
theorem claim1_sign_verify_roundtrip_tamper
    (db : WalletDB) (pw : String) (request : CredentialRequest)
    (issuerDID : String) (subjectDID : Option String) (uuid now now2 pk : String) (dd : JVal)
    (hget : StorageService.getDID db pw issuerDID = Except.ok (some dd))
    (hpk : getField dd "privateKey" = some (JVal.jstr pk))
    (haddr : DIDResolver.extractAddressFromDID issuerDID = some (CryptoService.addrOfKey pk)) :
    ∃ sc, CredentialService.signCredential db pw
        (CredentialService.createCredential request issuerDID subjectDID uuid now)
        issuerDID now2 = Except.ok sc ∧
      CredentialService.verifyCredential sc = true ∧
      ∀ k v v', getField sc.credentialSubject k = some v → v' ≠ v →
        CredentialService.verifyCredential
          { sc with credentialSubject := setField sc.credentialSubject k v' } = false := by
  set c := CredentialService.createCredential request issuerDID subjectDID uuid now with hc
  refine ⟨{ c with proof := some (Proof.mk "EcdsaSecp256k1Signature2019" now2
      "assertionMethod" (issuerDID ++ "#controller")
      (some (CryptoService.signData (credToJson c) pk))) }, ?_, ?_, ?_⟩
  · simp [CredentialService.signCredential, hget, hpk]
  · simp [CredentialService.verifyCredential, hc, CredentialService.createCredential, haddr,
      CryptoService.verifySignature, CryptoService.signData]
  · intro k v v' hgv hne
    have hne2 : setField c.credentialSubject k v' ≠ c.credentialSubject :=
      setField_ne_of_getField _ k v v' hgv hne
    have hjson : credToJson { c with credentialSubject := setField c.credentialSubject k v' }
        ≠ credToJson c := fun h => hne2 (credToJson_subject_inj _ _ h)
    have hb : (credToJson c ==
        credToJson { c with credentialSubject := setField c.credentialSubject k v' }) = false :=
      beq_eq_false_iff_ne.mpr (Ne.symm hjson)
    simp [CredentialService.verifyCredential, hc, CredentialService.createCredential, haddr,
      CryptoService.verifySignature, CryptoService.signData] at hb ⊢
    simp [hb]

/-- Witness for C2 at a concrete entity and concrete distinct secrets. -/
theorem claim2_witness :
    ("pw2" : String) ≠ "pw1" ∧
    (CryptoService.decrypt
        (CryptoService.encrypt (JVal.jobj [("degree", JVal.jstr "BSc")]) "pw1") "pw1"
      = Except.ok (JVal.jobj [("degree", JVal.jstr "BSc")]) ∧
     CryptoService.decrypt
        (CryptoService.encrypt (JVal.jobj [("degree", JVal.jstr "BSc")]) "pw1") "pw2"
      = Except.error WalletError.decryptionFailed) :=
  ⟨by decide, claim2_encrypt_decrypt_roundtrip
    (JVal.jobj [("degree", JVal.jstr "BSc")]) "pw1" "pw2" (by decide)⟩

/-- Witness for C1: a stored identity, a degree credential, concrete
timestamps; the hypotheses are discharged by evaluation. -/
theorem claim1_witness :
    DIDResolver.extractAddressFromDID "did:ethr:0xk1" = some (CryptoService.addrOfKey "k1") ∧
    (∃ sc,
      CredentialService.signCredential
        (StorageService.storeDID ⟨[], [], []⟩ "pw1" "did:ethr:0xk1" "k1" "pub1" "0xk1"
          (JVal.jobj []) "t0") "pw1"
        (CredentialService.createCredential
          ⟨"UniversityDegreeCredential", [("degree", JVal.jstr "BSc")], none⟩
          "did:ethr:0xk1" (some "did:ethr:0xk2") "u1" "t1")
        "did:ethr:0xk1" "t2" = Except.ok sc ∧
      CredentialService.verifyCredential sc = true ∧
      ∀ k v v', getField sc.credentialSubject k = some v → v' ≠ v →
        CredentialService.verifyCredential
          { sc with credentialSubject := setField sc.credentialSubject k v' } = false) :=
  ⟨by decide, claim1_sign_verify_roundtrip_tamper
    (StorageService.storeDID ⟨[], [], []⟩ "pw1" "did:ethr:0xk1" "k1" "pub1" "0xk1"
      (JVal.jobj []) "t0") "pw1"
    ⟨"UniversityDegreeCredential", [("degree", JVal.jstr "BSc")], none⟩
    "did:ethr:0xk1" (some "did:ethr:0xk2") "u1" "t1" "t2" "k1"
    (JVal.jobj [("did", JVal.jstr "did:ethr:0xk1"), ("privateKey", JVal.jstr "k1"),
      ("publicKey", JVal.jstr "pub1"), ("address", JVal.jstr "0xk1"),
      ("metadata", JVal.jobj [])])
    (by decide) (by decide) (by decide)⟩

/-- C3 counterexample: a snapshot holding one structurally invalid
credential record is imported into a store holding one identity; the
prior identity is destroyed (dids become empty), the invalid record is
adopted, and the store is not left unchanged — refuting all-or-nothing
import. -/
theorem claim3_counterexample :
    (let db0 := StorageService.storeDID ⟨[], [], []⟩ "pw1" "did:ethr:0xk1" "k1" "pub1" "0xk1"
        (JVal.jobj []) "t0"
     let bad := JVal.jobj [("note", JVal.jstr "not a credential record")]
     let snap : WalletSnapshot := ⟨[], [bad], []⟩
     specValidSnapshotCredential bad = false ∧
     db0.dids.length = 1 ∧
     (StorageService.importWallet db0 "pw1" snap "t1").dids = [] ∧
     (StorageService.importWallet db0 "pw1" snap "t1").credentials
       = [setField bad "encryptedData" (CryptoService.encrypt JVal.jnull "pw1")] ∧
     StorageService.importWallet db0 "pw1" snap "t1" ≠ db0) := by decide

/-- C3 (amended): `importWallet` is not all-or-nothing. It performs no
structural validation — a snapshot record failing the spec-modelled
validation is still adopted (re-encrypted) — and it unconditionally
replaces the previously persisted identities with the snapshot's,
independently of the prior store contents. -/
theorem claim3_amended (pw now : String) (db : WalletDB) (snap : WalletSnapshot) (r : JVal)
    (hr : r ∈ snap.credentials) (hinvalid : specValidSnapshotCredential r = false) :
    setField r "encryptedData"
        (CryptoService.encrypt ((getField r "credential").getD JVal.jnull) pw)
      ∈ (StorageService.importWallet db pw snap now).credentials ∧
    (StorageService.importWallet db pw snap now).dids = snap.dids.map (fun d =>
      setField d "encryptedPrivateKey"
        (CryptoService.encrypt ((getField d "privateKey").getD JVal.jnull) pw)) ∧
    StorageService.importWallet db pw snap now
      = StorageService.importWallet ⟨[], [], []⟩ pw snap now := by
  refine ⟨?_, rfl, rfl⟩
  simp only [StorageService.importWallet, List.mem_map]
  exact ⟨r, hr, rfl⟩

/-- Witness for the amended C3 at a concrete invalid record. -/
theorem claim3_witness :
    (JVal.jobj [("note", JVal.jstr "bad")]) ∈
      (WalletSnapshot.mk [] [JVal.jobj [("note", JVal.jstr "bad")]] []).credentials ∧
    specValidSnapshotCredential (JVal.jobj [("note", JVal.jstr "bad")]) = false ∧
    (setField (JVal.jobj [("note", JVal.jstr "bad")]) "encryptedData"
        (CryptoService.encrypt ((getField (JVal.jobj [("note", JVal.jstr "bad")]) "credential").getD JVal.jnull) "pw1")
      ∈ (StorageService.importWallet ⟨[], [], []⟩ "pw1"
          (WalletSnapshot.mk [] [JVal.jobj [("note", JVal.jstr "bad")]] []) "t1").credentials ∧
     (StorageService.importWallet ⟨[], [], []⟩ "pw1"
        (WalletSnapshot.mk [] [JVal.jobj [("note", JVal.jstr "bad")]] []) "t1").dids
       = (WalletSnapshot.mk [] [JVal.jobj [("note", JVal.jstr "bad")]] []).dids.map (fun d =>
          setField d "encryptedPrivateKey"
            (CryptoService.encrypt ((getField d "privateKey").getD JVal.jnull) "pw1")) ∧
     StorageService.importWallet ⟨[], [], []⟩ "pw1"
        (WalletSnapshot.mk [] [JVal.jobj [("note", JVal.jstr "bad")]] []) "t1"
       = StorageService.importWallet ⟨[], [], []⟩ "pw1"
          (WalletSnapshot.mk [] [JVal.jobj [("note", JVal.jstr "bad")]] []) "t1") :=
  ⟨by decide, by decide, claim3_amended "pw1" "t1" ⟨[], [], []⟩
    (WalletSnapshot.mk [] [JVal.jobj [("note", JVal.jstr "bad")]] [])
    (JVal.jobj [("note", JVal.jstr "bad")]) (by decide) (by decide)⟩

/-- C4: evaluating the failing input. Store one identity and one
credential, export, and re-import: the persisted DID record retains the
plaintext `privateKey` field and the persisted credential record
retains the plaintext `credential` payload, alongside the re-encrypted
fields — contradicting the claim that persisted records contain private
keys and credential payloads only in encrypted form. -/
theorem claim4_import_persists_plaintext :
    ((StorageService.exportWallet
        (StorageService.storeCredential
          (StorageService.storeDID ⟨[], [], []⟩ "pw1" "did:ethr:0xk1" "k1" "pub1" "0xk1"
            (JVal.jobj []) "t0")
          "pw1"
          (CredentialService.createCredential
            ⟨"UniversityDegreeCredential", [("degree", JVal.jstr "BSc")], none⟩
            "did:ethr:0xk1" (some "did:ethr:0xk2") "u1" "t1")
          "t2")
        "pw1").map (fun snap =>
          ((StorageService.importWallet
              (StorageService.storeCredential
                (StorageService.storeDID ⟨[], [], []⟩ "pw1" "did:ethr:0xk1" "k1" "pub1" "0xk1"
                  (JVal.jobj []) "t0")
                "pw1"
                (CredentialService.createCredential
                  ⟨"UniversityDegreeCredential", [("degree", JVal.jstr "BSc")], none⟩
                  "did:ethr:0xk1" (some "did:ethr:0xk2") "u1" "t1")
                "t2")
              "pw2" snap "t3").dids.map (fun r => getField r "privateKey"),
           (StorageService.importWallet
              (StorageService.storeCredential
                (StorageService.storeDID ⟨[], [], []⟩ "pw1" "did:ethr:0xk1" "k1" "pub1" "0xk1"
                  (JVal.jobj []) "t0")
                "pw1"
                (CredentialService.createCredential
                  ⟨"UniversityDegreeCredential", [("degree", JVal.jstr "BSc")], none⟩
                  "did:ethr:0xk1" (some "did:ethr:0xk2") "u1" "t1")
                "t2")
              "pw2" snap "t3").credentials.map (fun r => getField r "credential"))))
      = Except.ok ([some (JVal.jstr "k1")],
          [some (credToJson (CredentialService.createCredential
            ⟨"UniversityDegreeCredential", [("degree", JVal.jstr "BSc")], none⟩
            "did:ethr:0xk1" (some "did:ethr:0xk2") "u1" "t1"))]) := by decide

/-- A credential without a proof never verifies. -/
theorem verifyCredential_no_proof (c : VerifiableCredential) (h : c.proof = none) :
    CredentialService.verifyCredential c = false := by
  simp [CredentialService.verifyCredential, h]

/-- The simulated issuer credential carries no proof. -/
theorem simulateCredentialFromIssuer_unsigned (p : IssuerSimParams) (t ep s : String) :
    (OpenIDService.simulateCredentialFromIssuer p t ep s).proof = none := by
  simp [OpenIDService.simulateCredentialFromIssuer, CredentialService.createCredential]

/-- The offer-processing loop yields one credential per offered type. -/
theorem processOfferTypes_length (env : Nat → IssuerSimParams) (ep u : String) :
    ∀ (i : Nat) (ts : List String),
    (OpenIDService.processOfferTypes env ep u i ts).length = ts.length
  | _, [] => rfl
  | i, t :: ts => by
    simp [OpenIDService.processOfferTypes, processOfferTypes_length env ep u (i + 1) ts]

/-- Every credential from the offer-processing loop is unsigned. -/
theorem processOfferTypes_unsigned (env : Nat → IssuerSimParams) (ep u : String) :
    ∀ (i : Nat) (ts : List String),
    ∀ c ∈ OpenIDService.processOfferTypes env ep u i ts, c.proof = none
  | _, [], c, h => by simp [OpenIDService.processOfferTypes] at h
  | i, t :: ts, c, h => by
    simp only [OpenIDService.processOfferTypes, List.mem_cons] at h
    rcases h with h | h
    · rw [h]; exact simulateCredentialFromIssuer_unsigned (env i) t ep u
    · exact processOfferTypes_unsigned env ep u (i + 1) ts c h

/-- C5 counterexample: processing an offer with two offered types yields
two credentials, but none carries a signature proof and none passes
`verifyCredential` — refuting "each carrying a signature proof and each
independently passing verifyCredential". -/
theorem claim5_counterexample :
    (let result := OpenIDService.processCredentialOffer
        (fun _ => ⟨"aa", "LIC", "u", "t0"⟩) ⟨"https://issuer.example", ["A", "B"]⟩ "did:ethr:0xh1"
     result.length = 2 ∧
     result.map (fun c => c.proof) = [none, none] ∧
     result.map CredentialService.verifyCredential = [false, false]) := by decide

/-- C5 (amended): `processCredentialOffer` yields exactly one credential
per offered type, but each is unsigned (`proof = none`) and fails
`verifyCredential`; the function persists nothing and reports no
per-type success/failure counts. -/
theorem claim5_amended (env : Nat → IssuerSimParams) (offer : OpenID4VCICredentialOffer)
    (userDID : String) :
    (OpenIDService.processCredentialOffer env offer userDID).length
      = offer.credentials.length ∧
    ∀ c ∈ OpenIDService.processCredentialOffer env offer userDID,
      c.proof = none ∧ CredentialService.verifyCredential c = false := by
  constructor
  · exact processOfferTypes_length env offer.credential_issuer userDID 0 offer.credentials
  · intro c hc
    have h := processOfferTypes_unsigned env offer.credential_issuer userDID 0
      offer.credentials c hc
    exact ⟨h, verifyCredential_no_proof c h⟩

/-- Witness for the amended C5 at a concrete two-type offer. -/
theorem claim5_witness :
    (OpenIDService.processCredentialOffer (fun _ => ⟨"aa", "LIC", "u", "t0"⟩)
        ⟨"https://issuer.example", ["A", "B"]⟩ "did:ethr:0xh1").length
      = (["A", "B"] : List String).length ∧
    (OpenIDService.simulateCredentialFromIssuer ⟨"aa", "LIC", "u", "t0"⟩ "A"
        "https://issuer.example" "did:ethr:0xh1")
      ∈ OpenIDService.processCredentialOffer (fun _ => ⟨"aa", "LIC", "u", "t0"⟩)
        ⟨"https://issuer.example", ["A", "B"]⟩ "did:ethr:0xh1" ∧
    ((OpenIDService.simulateCredentialFromIssuer ⟨"aa", "LIC", "u", "t0"⟩ "A"
        "https://issuer.example" "did:ethr:0xh1").proof = none ∧
     CredentialService.verifyCredential
       (OpenIDService.simulateCredentialFromIssuer ⟨"aa", "LIC", "u", "t0"⟩ "A"
         "https://issuer.example" "did:ethr:0xh1") = false) :=
  ⟨(claim5_amended (fun _ => ⟨"aa", "LIC", "u", "t0"⟩)
      ⟨"https://issuer.example", ["A", "B"]⟩ "did:ethr:0xh1").1,
   by decide,
   (claim5_amended (fun _ => ⟨"aa", "LIC", "u", "t0"⟩)
      ⟨"https://issuer.example", ["A", "B"]⟩ "did:ethr:0xh1").2
     (OpenIDService.simulateCredentialFromIssuer ⟨"aa", "LIC", "u", "t0"⟩ "A"
       "https://issuer.example" "did:ethr:0xh1") (by decide)⟩

/-- The credential loop of `verifyPresentation` accepts exactly when
every embedded credential verifies. -/
theorem verifyCredentialList_all : ∀ cs : List VerifiableCredential,
    CredentialService.verifyCredentialList cs = true
      ↔ ∀ c ∈ cs, CredentialService.verifyCredential c = true
  | [] => by simp [CredentialService.verifyCredentialList]
  | c :: cs => by
    by_cases h : CredentialService.verifyCredential c = true
    · simp [CredentialService.verifyCredentialList, h, verifyCredentialList_all cs]
    · simp [CredentialService.verifyCredentialList, h]

/-- Fail-fast behaviour of the credential loop: with a valid prefix and a
first failing credential, the loop rejects and performs exactly one
check per prefix element plus the failing one — none on the rest. -/
theorem verifyCredentialList_shortcircuit :
    ∀ (cs1 : List VerifiableCredential) (c : VerifiableCredential)
      (cs2 : List VerifiableCredential),
    (∀ x ∈ cs1, CredentialService.verifyCredential x = true) →
    CredentialService.verifyCredential c = false →
    CredentialService.verifyCredentialList (cs1 ++ c :: cs2) = false ∧
    CredentialService.verifyCredentialListChecks (cs1 ++ c :: cs2) = cs1.length + 1
  | [], c, cs2, _, hc => by
    simp [CredentialService.verifyCredentialList, CredentialService.verifyCredentialListChecks, hc]
  | x :: cs1, c, cs2, hall, hc => by
    have hx : CredentialService.verifyCredential x = true := hall x (List.mem_cons_self x cs1)
    have ih := verifyCredentialList_shortcircuit cs1 c cs2
      (fun y hy => hall y (List.mem_cons_of_mem x hy)) hc
    simp [CredentialService.verifyCredentialList, CredentialService.verifyCredentialListChecks,
      hx, ih.1, ih.2]
    omega

/-- C7: `verifyPresentation` returns `true` iff the presentation's own
proof verifies under the holder's key and every embedded credential
independently passes `verifyCredential`; and the credential loop
short-circuits on the first invalid credential, performing no
signature checks on the credentials after the first failing one. -/
theorem claim7_verifyPresentation (p : Presentation) :
    (CredentialService.verifyPresentation p = true ↔
      CredentialService.presentationSignatureValid p = true ∧
      ∀ c ∈ p.verifiableCredential, CredentialService.verifyCredential c = true) ∧
    (∀ (cs1 : List VerifiableCredential) (c : VerifiableCredential)
        (cs2 : List VerifiableCredential),
      p.verifiableCredential = cs1 ++ c :: cs2 →
      (∀ x ∈ cs1, CredentialService.verifyCredential x = true) →
      CredentialService.verifyCredential c = false →
      CredentialService.verifyPresentation p = false ∧
      CredentialService.verifyCredentialListChecks p.verifiableCredential
        = cs1.length + 1) := by
  constructor
  · by_cases hs : CredentialService.presentationSignatureValid p = true
    · simp [CredentialService.verifyPresentation, hs, verifyCredentialList_all]
    · simp [CredentialService.verifyPresentation, hs]
  · intro cs1 c cs2 hl hall hc
    have h := verifyCredentialList_shortcircuit cs1 c cs2 hall hc
    rw [hl]
    refine ⟨?_, h.2⟩
    by_cases hs : CredentialService.presentationSignatureValid p = true
    · simp [CredentialService.verifyPresentation, hs, hl, h.1]
    · simp [CredentialService.verifyPresentation, hs]

/-- C8: `verifyCredential` returns the boolean `false` — rather than
throwing — when the proof is missing, when no address can be extracted
from the issuer DID, and when the signature check fails; likewise
`verifyPresentation` for a missing proof or malformed holder DID. The
embedded functions are total (`Bool`-valued), mirroring the source's
`try/catch → false` around each body. -/
theorem claim8_verification_never_throws (c : VerifiableCredential) (p : Presentation) :
    (c.proof = none → CredentialService.verifyCredential c = false) ∧
    (DIDResolver.extractAddressFromDID c.issuer = none →
      CredentialService.verifyCredential c = false) ∧
    (∀ pr addr, c.proof = some pr →
      DIDResolver.extractAddressFromDID c.issuer = some addr →
      CryptoService.verifySignature (credToJson { c with proof := none })
        (pr.signature.getD JVal.jnull) addr = false →
      CredentialService.verifyCredential c = false) ∧
    (p.proof = none → CredentialService.verifyPresentation p = false) ∧
    (DIDResolver.extractAddressFromDID p.holder = none →
      CredentialService.verifyPresentation p = false) := by
  refine ⟨?_, ?_, ?_, ?_, ?_⟩
  · intro h; exact verifyCredential_no_proof c h
  · intro h
    unfold CredentialService.verifyCredential
    cases hcp : c.proof with
    | none => rfl
    | some pr => simp [h]
  · intro pr addr hpr haddr hsig
    simp [CredentialService.verifyCredential, hpr, haddr, hsig]
  · intro h
    simp [CredentialService.verifyPresentation, CredentialService.presentationSignatureValid, h]
  · intro h
    unfold CredentialService.verifyPresentation CredentialService.presentationSignatureValid
    cases hcp : p.proof with
    | none => rfl
    | some pr => simp [h]

/-- Witness for C7: a presentation with two unverifiable credentials;
the loop performs exactly one check. -/
theorem claim7_witness :
    (let bad : VerifiableCredential := ⟨[], "vc1", ["VerifiableCredential"], "did:ethr:0xa",
        "t", none, JVal.jobj [], none⟩
     let bad2 : VerifiableCredential := ⟨[], "vc2", ["VerifiableCredential"], "did:ethr:0xa",
        "t", none, JVal.jobj [], none⟩
     let p0 : Presentation := ⟨[], ["VerifiablePresentation"], "vp1", "did:ethr:0xh",
        [bad, bad2], "t", none, none, none⟩
     (CredentialService.verifyPresentation p0 = true ↔
        CredentialService.presentationSignatureValid p0 = true ∧
        ∀ c ∈ p0.verifiableCredential, CredentialService.verifyCredential c = true) ∧
     p0.verifiableCredential = [] ++ bad :: [bad2] ∧
     (∀ x ∈ ([] : List VerifiableCredential), CredentialService.verifyCredential x = true) ∧
     CredentialService.verifyCredential bad = false ∧
     (CredentialService.verifyPresentation p0 = false ∧
      CredentialService.verifyCredentialListChecks p0.verifiableCredential
        = ([] : List VerifiableCredential).length + 1)) :=
  ⟨(claim7_verifyPresentation ⟨[], ["VerifiablePresentation"], "vp1", "did:ethr:0xh",
      [⟨[], "vc1", ["VerifiableCredential"], "did:ethr:0xa", "t", none, JVal.jobj [], none⟩,
       ⟨[], "vc2", ["VerifiableCredential"], "did:ethr:0xa", "t", none, JVal.jobj [], none⟩],
      "t", none, none, none⟩).1,
   by decide, by decide, by decide,
   (claim7_verifyPresentation ⟨[], ["VerifiablePresentation"], "vp1", "did:ethr:0xh",
      [⟨[], "vc1", ["VerifiableCredential"], "did:ethr:0xa", "t", none, JVal.jobj [], none⟩,
       ⟨[], "vc2", ["VerifiableCredential"], "did:ethr:0xa", "t", none, JVal.jobj [], none⟩],
      "t", none, none, none⟩).2
     [] ⟨[], "vc1", ["VerifiableCredential"], "did:ethr:0xa", "t", none, JVal.jobj [], none⟩
     [⟨[], "vc2", ["VerifiableCredential"], "did:ethr:0xa", "t", none, JVal.jobj [], none⟩]
     (by decide) (by decide) (by decide)⟩

/-- Witness for C8 at concrete credentials and presentations covering
each failure cause. -/
theorem claim8_witness :
    (let cA : VerifiableCredential := ⟨[], "vcA", ["VerifiableCredential"], "did:ethr:0xa",
        "t", none, JVal.jobj [], none⟩
     let cB : VerifiableCredential := ⟨[], "vcB", ["VerifiableCredential"], "not-a-did",
        "t", none, JVal.jobj [],
        some (Proof.mk "T" "t" "assertionMethod" "m" (some (JVal.jsig JVal.jnull "0xa")))⟩
     let cC : VerifiableCredential := ⟨[], "vcC", ["VerifiableCredential"], "did:ethr:0xa",
        "t", none, JVal.jobj [],
        some (Proof.mk "T" "t" "assertionMethod" "m" (some (JVal.jsig JVal.jnull "0xa")))⟩
     let pA : Presentation := ⟨[], ["VerifiablePresentation"], "vp1", "did:ethr:0xh",
        [], "t", none, none, none⟩
     let pB : Presentation := ⟨[], ["VerifiablePresentation"], "vp2", "not-a-did",
        [], "t", none, none,
        some (Proof.mk "T" "t" "authentication" "m" (some (JVal.jsig JVal.jnull "0xh")))⟩
     (cA.proof = none ∧ CredentialService.verifyCredential cA = false) ∧
     (DIDResolver.extractAddressFromDID cB.issuer = none ∧
      CredentialService.verifyCredential cB = false) ∧
     (CredentialService.verifyCredential cC = false) ∧
     (pA.proof = none ∧ CredentialService.verifyPresentation pA = false) ∧
     (DIDResolver.extractAddressFromDID pB.holder = none ∧
      CredentialService.verifyPresentation pB = false)) :=
  ⟨⟨by decide, (claim8_verification_never_throws
      ⟨[], "vcA", ["VerifiableCredential"], "did:ethr:0xa", "t", none, JVal.jobj [], none⟩
      ⟨[], ["VerifiablePresentation"], "vp1", "did:ethr:0xh", [], "t", none, none, none⟩).1
      (by decide)⟩,
   ⟨by decide, (claim8_verification_never_throws
      ⟨[], "vcB", ["VerifiableCredential"], "not-a-did", "t", none, JVal.jobj [],
        some (Proof.mk "T" "t" "assertionMethod" "m" (some (JVal.jsig JVal.jnull "0xa")))⟩
      ⟨[], ["VerifiablePresentation"], "vp1", "did:ethr:0xh", [], "t", none, none, none⟩).2.1
      (by decide)⟩,
   (claim8_verification_never_throws
      ⟨[], "vcC", ["VerifiableCredential"], "did:ethr:0xa", "t", none, JVal.jobj [],
        some (Proof.mk "T" "t" "assertionMethod" "m" (some (JVal.jsig JVal.jnull "0xa")))⟩
      ⟨[], ["VerifiablePresentation"], "vp1", "did:ethr:0xh", [], "t", none, none, none⟩).2.2.1
      (Proof.mk "T" "t" "assertionMethod" "m" (some (JVal.jsig JVal.jnull "0xa")))
      "0xa" (by decide) (by decide) (by decide),
   ⟨by decide, (claim8_verification_never_throws
      ⟨[], "vcA", ["VerifiableCredential"], "did:ethr:0xa", "t", none, JVal.jobj [], none⟩
      ⟨[], ["VerifiablePresentation"], "vp1", "did:ethr:0xh", [], "t", none, none, none⟩).2.2.2.1
      (by decide)⟩,
   ⟨by decide, (claim8_verification_never_throws
      ⟨[], "vcA", ["VerifiableCredential"], "did:ethr:0xa", "t", none, JVal.jobj [], none⟩
      ⟨[], ["VerifiablePresentation"], "vp2", "not-a-did", [], "t", none, none,
        some (Proof.mk "T" "t" "authentication" "m" (some (JVal.jsig JVal.jnull "0xh")))⟩).2.2.2.2
      (by decide)⟩⟩

/-- C9 counterexample: `createCredential` with an empty claims bag does
not reject with a validation error — the source has no validation path —
but returns a well-formed unsigned credential whose subject carries only
the subject id. -/
theorem claim9_counterexample :
    CredentialService.createCredential ⟨"UniversityDegreeCredential", [], none⟩
      "did:ethr:0xa" (some "did:ethr:0xb") "u1" "t1"
    = { context := ["https://www.w3.org/2018/credentials/v1",
                    "https://www.w3.org/2018/credentials/examples/v1"],
        id := "urn:uuid:u1",
        type := ["VerifiableCredential", "UniversityDegreeCredential"],
        issuer := "did:ethr:0xa", issuanceDate := "t1", expirationDate := none,
        credentialSubject := JVal.jobj [("id", JVal.jstr "did:ethr:0xb")],
        proof := none } := by decide

/-- C9 (amended): `createCredential` performs no validation and never
rejects: it always produces an unsigned credential with a fresh
`urn:uuid:` id from the supplied UUID and the supplied timestamp as
issuance date; empty claims yield a subject holding only the id. -/
theorem claim9_amended (request : CredentialRequest) (issuerDID : String)
    (subjectDID : Option String) (uuid now : String) :
    (CredentialService.createCredential request issuerDID subjectDID uuid now).id
      = "urn:uuid:" ++ uuid ∧
    (CredentialService.createCredential request issuerDID subjectDID uuid now).issuanceDate
      = now ∧
    (CredentialService.createCredential request issuerDID subjectDID uuid now).proof = none ∧
    (request.subject = [] →
      (CredentialService.createCredential request issuerDID subjectDID uuid now).credentialSubject
        = JVal.jobj [("id", JVal.jstr (jsOrDefault subjectDID issuerDID))]) := by
  refine ⟨rfl, rfl, rfl, ?_⟩
  intro h
  simp [CredentialService.createCredential, spreadFields, h]

/-- Witness for the amended C9 at an empty claims bag. -/
theorem claim9_witness :
    (⟨"UniversityDegreeCredential", [], none⟩ : CredentialRequest).subject = [] ∧
    ((CredentialService.createCredential ⟨"UniversityDegreeCredential", [], none⟩
        "did:ethr:0xa" (some "did:ethr:0xb") "u1" "t1").id = "urn:uuid:" ++ "u1" ∧
     (CredentialService.createCredential ⟨"UniversityDegreeCredential", [], none⟩
        "did:ethr:0xa" (some "did:ethr:0xb") "u1" "t1").issuanceDate = "t1" ∧
     (CredentialService.createCredential ⟨"UniversityDegreeCredential", [], none⟩
        "did:ethr:0xa" (some "did:ethr:0xb") "u1" "t1").proof = none ∧
     ((⟨"UniversityDegreeCredential", [], none⟩ : CredentialRequest).subject = [] →
       (CredentialService.createCredential ⟨"UniversityDegreeCredential", [], none⟩
          "did:ethr:0xa" (some "did:ethr:0xb") "u1" "t1").credentialSubject
         = JVal.jobj [("id", JVal.jstr (jsOrDefault (some "did:ethr:0xb") "did:ethr:0xa"))])) :=
  ⟨by decide, claim9_amended ⟨"UniversityDegreeCredential", [], none⟩
    "did:ethr:0xa" (some "did:ethr:0xb") "u1" "t1"⟩

/-- C10: for every syntactically valid URL whose
`presentation_definition` parameter (when present and non-empty)
decodes, `parsePresentationRequest` returns a request even when
`client_id`/`redirect_uri` are absent — they default to `""` and
`response_type`/`scope` to `"vp_token"`/`"openid"`; absence of a
verifier id or redirect target is never a parse failure. -/
theorem claim10_parse_defaults (decode : String → Option PresentationDefinition)
    (u : ParsedURL)
    (hpd : ∀ s, u.getParam "presentation_definition" = some s → s ≠ "" →
      (decode s).isSome = true) :
    ∃ req, OpenIDService.parsePresentationRequest decode (some u) = some req ∧
      (u.getParam "client_id" = none → req.client_id = "") ∧
      (u.getParam "redirect_uri" = none → req.redirect_uri = "") ∧
      (u.getParam "response_type" = none → req.response_type = "vp_token") ∧
      (u.getParam "scope" = none → req.scope = "openid") := by
  simp only [OpenIDService.parsePresentationRequest]
  cases hp : u.getParam "presentation_definition" with
  | none =>
    refine ⟨_, rfl, ?_, ?_, ?_, ?_⟩ <;> intro h <;> simp [jsOrDefault, h]
  | some s =>
    by_cases hs : (s == "") = true
    · simp only [hs, if_true]
      refine ⟨_, rfl, ?_, ?_, ?_, ?_⟩ <;> intro h <;> simp [jsOrDefault, h]
    · have hne : s ≠ "" := by simpa using hs
      obtain ⟨pd, hdec⟩ := Option.isSome_iff_exists.mp (hpd s hp hne)
      simp only [hs, hdec]
      rw [if_neg Bool.false_ne_true]
      refine ⟨_, rfl, ?_, ?_, ?_, ?_⟩ <;> intro h <;> simp [jsOrDefault, h]

/-- Witness for C10 at a URL carrying only a `nonce` parameter. -/
theorem claim10_witness :
    (∀ s, (ParsedURL.mk [("nonce", "n1")]).getParam "presentation_definition" = some s →
      s ≠ "" → ((fun _ => none : String → Option PresentationDefinition) s).isSome = true) ∧
    (∃ req, OpenIDService.parsePresentationRequest (fun _ => none)
        (some (ParsedURL.mk [("nonce", "n1")])) = some req ∧
      ((ParsedURL.mk [("nonce", "n1")]).getParam "client_id" = none → req.client_id = "") ∧
      ((ParsedURL.mk [("nonce", "n1")]).getParam "redirect_uri" = none →
        req.redirect_uri = "") ∧
      ((ParsedURL.mk [("nonce", "n1")]).getParam "response_type" = none →
        req.response_type = "vp_token") ∧
      ((ParsedURL.mk [("nonce", "n1")]).getParam "scope" = none → req.scope = "openid")) :=
  ⟨by decide, claim10_parse_defaults (fun _ => none) (ParsedURL.mk [("nonce", "n1")])
    (by intro s hs; simp [ParsedURL.getParam] at hs)⟩

/-- The id-deduplication guard of the inner filtering loop keeps the
accumulated ids duplicate-free. -/
theorem addMatching_nodup (d : InputDescriptor) :
    ∀ (cs acc : List VerifiableCredential),
    (acc.map (fun c => c.id)).Nodup →
    ((OpenIDService.addMatching d cs acc).map (fun c => c.id)).Nodup
  | [], _, h => h
  | c :: cs, acc, h => by
    simp only [OpenIDService.addMatching]
    by_cases hg : (OpenIDService.matchesDescriptorType d c
        && !(acc.any fun x => x.id == c.id)) = true
    · rw [if_pos hg]
      apply addMatching_nodup d cs
      have hg' := hg
      simp only [Bool.and_eq_true, Bool.not_eq_true'] at hg'
      have hno : (acc.any fun x => x.id == c.id) = false := hg'.2
      have hnotin : c.id ∉ acc.map (fun x => x.id) := by
        intro hmem
        rw [List.mem_map] at hmem
        obtain ⟨x, hx, he⟩ := hmem
        have hany : acc.any (fun x => x.id == c.id) = true :=
          List.any_eq_true.mpr ⟨x, hx, by simp [he]⟩
        rw [hany] at hno
        exact Bool.noConfusion hno
      simp [List.nodup_append, h, hnotin]
    · rw [if_neg hg]
      exact addMatching_nodup d cs acc h

/-- Membership after one descriptor pass: when the held credentials have
distinct ids (and the accumulator is id-compatible with them), a
credential is in the output iff it was already accumulated or it is a
held credential matching the descriptor. -/
theorem addMatching_mem (d : InputDescriptor) :
    ∀ (cs acc : List VerifiableCredential),
    (cs.map (fun c => c.id)).Nodup →
    (∀ a ∈ acc, ∀ c ∈ cs, a.id = c.id → a = c) →
    ∀ x, x ∈ OpenIDService.addMatching d cs acc ↔
      x ∈ acc ∨ (x ∈ cs ∧ OpenIDService.matchesDescriptorType d x = true)
  | [], acc, _, _, x => by simp [OpenIDService.addMatching]
  | c :: cs, acc, hnodup, hcompat, x => by
    rw [List.map_cons, List.nodup_cons] at hnodup
    obtain ⟨hcid, hnodup'⟩ := hnodup
    simp only [OpenIDService.addMatching]
    by_cases hm : OpenIDService.matchesDescriptorType d c = true
    · by_cases hany : (acc.any fun y => y.id == c.id) = true
      · have hg : (OpenIDService.matchesDescriptorType d c
            && !(acc.any fun y => y.id == c.id)) = false := by simp [hany]
        rw [hg, if_neg Bool.false_ne_true]
        have hcacc : c ∈ acc := by
          obtain ⟨a, ha, hae⟩ := List.any_eq_true.mp hany
          have hac : a = c := hcompat a ha c (List.mem_cons_self c cs) (by simpa using hae)
          rw [← hac]; exact ha
        have hcompat' : ∀ a ∈ acc, ∀ y ∈ cs, a.id = y.id → a = y :=
          fun a ha y hy => hcompat a ha y (List.mem_cons_of_mem c hy)
        rw [addMatching_mem d cs acc hnodup' hcompat' x]
        constructor
        · rintro (hx | ⟨hx, hmx⟩)
          · exact Or.inl hx
          · exact Or.inr ⟨List.mem_cons_of_mem c hx, hmx⟩
        · rintro (hx | ⟨hx, hmx⟩)
          · exact Or.inl hx
          · rcases List.mem_cons.mp hx with hx | hx
            · rw [hx]; exact Or.inl hcacc
            · exact Or.inr ⟨hx, hmx⟩
      · have hg : (OpenIDService.matchesDescriptorType d c
            && !(acc.any fun y => y.id == c.id)) = true := by
          simp [hm, hany]
        rw [if_pos hg]
        have hcompat' : ∀ a ∈ acc ++ [c], ∀ y ∈ cs, a.id = y.id → a = y := by
          intro a ha y hy hid
          rcases List.mem_append.mp ha with ha | ha
          · exact hcompat a ha y (List.mem_cons_of_mem c hy) hid
          · have hac : a = c := by simpa using ha
            exfalso
            apply hcid
            rw [List.mem_map]
            exact ⟨y, hy, by rw [← hid, hac]⟩
        rw [addMatching_mem d cs (acc ++ [c]) hnodup' hcompat' x]
        simp only [List.mem_append, List.mem_cons]
        constructor
        · rintro ((hx | hx) | ⟨hx, hmx⟩)
          · exact Or.inl hx
          · have hxc : x = c := by simpa using hx
            exact Or.inr ⟨Or.inl hxc, by rw [hxc]; exact hm⟩
          · exact Or.inr ⟨Or.inr hx, hmx⟩
        · rintro (hx | ⟨hx | hx, hmx⟩)
          · exact Or.inl (Or.inl hx)
          · exact Or.inl (Or.inr (by simp [hx]))
          · exact Or.inr ⟨hx, hmx⟩
    · have hg : (OpenIDService.matchesDescriptorType d c
          && !(acc.any fun y => y.id == c.id)) = false := by
        simp [hm]
      rw [hg, if_neg Bool.false_ne_true]
      have hcompat' : ∀ a ∈ acc, ∀ y ∈ cs, a.id = y.id → a = y :=
        fun a ha y hy => hcompat a ha y (List.mem_cons_of_mem c hy)
      rw [addMatching_mem d cs acc hnodup' hcompat' x]
      constructor
      · rintro (hx | ⟨hx, hmx⟩)
        · exact Or.inl hx
        · exact Or.inr ⟨List.mem_cons_of_mem c hx, hmx⟩
      · rintro (hx | ⟨hx, hmx⟩)
        · exact Or.inl hx
        · rcases List.mem_cons.mp hx with hx | hx
          · exfalso; rw [hx] at hmx; exact hm hmx
          · exact Or.inr ⟨hx, hmx⟩

/-- The outer filtering loop keeps the accumulated ids duplicate-free. -/
theorem runDescriptors_nodup :
    ∀ (ds : List InputDescriptor) (cs acc : List VerifiableCredential),
    (acc.map (fun c => c.id)).Nodup →
    ((OpenIDService.runDescriptors ds cs acc).map (fun c => c.id)).Nodup
  | [], _, _, h => h
  | d :: ds, cs, acc, h =>
    runDescriptors_nodup ds cs _ (addMatching_nodup d cs acc h)

/-- Membership after all descriptor passes: with distinct held ids, a
credential is in the output iff it was accumulated or matches some
descriptor. -/
theorem runDescriptors_mem :
    ∀ (ds : List InputDescriptor) (cs acc : List VerifiableCredential),
    (cs.map (fun c => c.id)).Nodup →
    (∀ a ∈ acc, a ∈ cs) →
    ∀ x, x ∈ OpenIDService.runDescriptors ds cs acc ↔
      x ∈ acc ∨ (x ∈ cs ∧ ∃ d ∈ ds, OpenIDService.matchesDescriptorType d x = true)
  | [], cs, acc, _, _, x => by simp [OpenIDService.runDescriptors]
  | d :: ds, cs, acc, hnodup, hsub, x => by
    have hcompat : ∀ a ∈ acc, ∀ y ∈ cs, a.id = y.id → a = y :=
      fun a ha y hy hid => List.inj_on_of_nodup_map hnodup (hsub a ha) hy hid
    have hsub2 : ∀ a ∈ OpenIDService.addMatching d cs acc, a ∈ cs := by
      intro a ha
      rcases (addMatching_mem d cs acc hnodup hcompat a).mp ha with h | ⟨h, _⟩
      · exact hsub a h
      · exact h
    simp only [OpenIDService.runDescriptors]
    rw [runDescriptors_mem ds cs _ hnodup hsub2 x,
      addMatching_mem d cs acc hnodup hcompat x]
    simp only [List.mem_cons]
    constructor
    · rintro ((hx | ⟨hx, hmx⟩) | ⟨hx, d2, hd2, hmd2⟩)
      · exact Or.inl hx
      · exact Or.inr ⟨hx, d, Or.inl rfl, hmx⟩
      · exact Or.inr ⟨hx, d2, Or.inr hd2, hmd2⟩
    · rintro (hx | ⟨hx, d2, hd2 | hd2, hmd2⟩)
      · exact Or.inl (Or.inl hx)
      · exact Or.inl (Or.inr ⟨hx, by rw [← hd2]; exact hmd2⟩)
      · exact Or.inr ⟨hx, d2, hd2, hmd2⟩

/-- C6 counterexample: with the single descriptor id
`"university_degree"` (path `"$.type"`), the held credential of type
`["VerifiableCredential","UniversityDegreeCredential"]` is NOT included:
the code requires the descriptor id to occur literally (underscore
included) as a case-insensitive substring of a declared type, and
`"university_degree"` does not occur in `"universitydegreecredential"`. -/
theorem claim6_counterexample :
    OpenIDService.filterCredentialsForRequest
      [⟨[], "vc1", ["VerifiableCredential", "UniversityDegreeCredential"], "did:ethr:0xa",
        "t", none, JVal.jobj [], none⟩]
      (some ⟨"pd1", [⟨"university_degree", ⟨[⟨["$.type"]⟩]⟩⟩]⟩) = [] := by decide

/-- C6 (amended): `filterCredentialsForRequest` with no definition is the
identity; with a definition (and held credentials with distinct ids), a
credential is included iff some input descriptor both has a constraint
field whose path contains `"$.type"` and has an id occurring literally
as a case-insensitive substring of one of the credential's declared
types (`matchesDescriptorType`); the result's ids are always
duplicate-free. -/
theorem claim6_amended (creds : List VerifiableCredential) (pd : PresentationDefinition)
    (hnodup : (creds.map (fun c => c.id)).Nodup) :
    OpenIDService.filterCredentialsForRequest creds none = creds ∧
    (∀ x, x ∈ OpenIDService.filterCredentialsForRequest creds (some pd) ↔
      x ∈ creds ∧ ∃ d ∈ pd.input_descriptors,
        OpenIDService.matchesDescriptorType d x = true) ∧
    ((OpenIDService.filterCredentialsForRequest creds (some pd)).map (fun c => c.id)).Nodup := by
  refine ⟨rfl, ?_, ?_⟩
  · intro x
    have hr : OpenIDService.filterCredentialsForRequest creds (some pd)
        = OpenIDService.runDescriptors pd.input_descriptors creds [] := rfl
    rw [hr, runDescriptors_mem pd.input_descriptors creds [] hnodup
      (by intro a ha; exact absurd ha (List.not_mem_nil a)) x]
    simp
  · exact runDescriptors_nodup pd.input_descriptors creds []
      (by simp)

/-- Witness for the amended C6: two held credentials and the descriptor
id `"universitydegree"` (no underscore), which matches the degree
credential and not the license credential. -/
theorem claim6_witness :
    (([⟨[], "vc1", ["VerifiableCredential", "UniversityDegreeCredential"], "did:ethr:0xa",
        "t", none, JVal.jobj [], none⟩,
       ⟨[], "vc2", ["VerifiableCredential", "DriverLicenseCredential"], "did:ethr:0xa",
        "t", none, JVal.jobj [], none⟩] : List VerifiableCredential).map
        (fun c => c.id)).Nodup ∧
    (OpenIDService.filterCredentialsForRequest
      [⟨[], "vc1", ["VerifiableCredential", "UniversityDegreeCredential"], "did:ethr:0xa",
        "t", none, JVal.jobj [], none⟩,
       ⟨[], "vc2", ["VerifiableCredential", "DriverLicenseCredential"], "did:ethr:0xa",
        "t", none, JVal.jobj [], none⟩] none
      = [⟨[], "vc1", ["VerifiableCredential", "UniversityDegreeCredential"], "did:ethr:0xa",
          "t", none, JVal.jobj [], none⟩,
         ⟨[], "vc2", ["VerifiableCredential", "DriverLicenseCredential"], "did:ethr:0xa",
          "t", none, JVal.jobj [], none⟩] ∧
     (∀ x, x ∈ OpenIDService.filterCredentialsForRequest
        [⟨[], "vc1", ["VerifiableCredential", "UniversityDegreeCredential"], "did:ethr:0xa",
          "t", none, JVal.jobj [], none⟩,
         ⟨[], "vc2", ["VerifiableCredential", "DriverLicenseCredential"], "did:ethr:0xa",
          "t", none, JVal.jobj [], none⟩]
        (some ⟨"pd1", [⟨"universitydegree", ⟨[⟨["$.type"]⟩]⟩⟩]⟩) ↔
       x ∈ [⟨[], "vc1", ["VerifiableCredential", "UniversityDegreeCredential"], "did:ethr:0xa",
          "t", none, JVal.jobj [], none⟩,
         ⟨[], "vc2", ["VerifiableCredential", "DriverLicenseCredential"], "did:ethr:0xa",
          "t", none, JVal.jobj [], none⟩] ∧
       ∃ d ∈ (⟨"pd1", [⟨"universitydegree", ⟨[⟨["$.type"]⟩]⟩⟩]⟩ :
          PresentationDefinition).input_descriptors,
         OpenIDService.matchesDescriptorType d x = true) ∧
     ((OpenIDService.filterCredentialsForRequest
        [⟨[], "vc1", ["VerifiableCredential", "UniversityDegreeCredential"], "did:ethr:0xa",
          "t", none, JVal.jobj [], none⟩,
         ⟨[], "vc2", ["VerifiableCredential", "DriverLicenseCredential"], "did:ethr:0xa",
          "t", none, JVal.jobj [], none⟩]
        (some ⟨"pd1", [⟨"universitydegree", ⟨[⟨["$.type"]⟩]⟩⟩]⟩)).map (fun c => c.id)).Nodup) :=
  ⟨by decide, claim6_amended
    [⟨[], "vc1", ["VerifiableCredential", "UniversityDegreeCredential"], "did:ethr:0xa",
      "t", none, JVal.jobj [], none⟩,
     ⟨[], "vc2", ["VerifiableCredential", "DriverLicenseCredential"], "did:ethr:0xa",
      "t", none, JVal.jobj [], none⟩]
    ⟨"pd1", [⟨"universitydegree", ⟨[⟨["$.type"]⟩]⟩⟩]⟩ (by decide)⟩
